import Mathlib

/-!
Verification development for the selector-builder and JSON helper module
(`src/06-objects-tasks.js`).

The JavaScript source is embedded shallowly:

* a selector part `{ type, value }` becomes the structure `CssPart`;
* the builder objects produced by `cssSelectorBuilder` become the inductive
  `CssObj`: an object either carries only an (optional) own `parts` array, or
  it additionally carries a `combined` record (an object created by `combine`;
  the `parts` component models the `parts` property such an object may still
  see through its prototype chain);
* each method (`element`, `id`, `class`, `attr`, `pseudoClass`,
  `pseudoElement`, `combine`, `stringify`) and the helper `validateOrder`
  become Lean functions of the same name;
* a thrown `Error` becomes `Except.error` carrying the exact message string;
* `Array.prototype.sort` with the comparator
  `order.indexOf(a.type) - order.indexOf(b.type)` is a stable sort
  (guaranteed since ES2019); it is modelled by the stable
  `List.insertionSort` keyed by the same `indexOf` ranks.
-/

/-- One selector fragment, the object literal `{ type, value }` pushed onto
`obj.parts` by the builder methods. `type` is one of the six tag strings used
by the source. -/
structure CssPart where
  type : String
  value : String
deriving DecidableEq, Repr

/-- The array `order` used by `validateOrder` and `stringify` in the source:
`['element', 'id', 'class', 'attr', 'pseudoClass', 'pseudoElement']`. -/
def selectorOrder : List String :=
  ["element", "id", "class", "attr", "pseudoClass", "pseudoElement"]

/-- JavaScript `Array.prototype.indexOf`: index of the first occurrence of
`s`, or `-1` when `s` is absent. -/
def jsIndexOf : List String → String → Int
  | [], _ => -1
  | x :: rest, s =>
    if x == s then 0
    else
      let r := jsIndexOf rest s
      if r == -1 then -1 else r + 1

/-- Message of the error thrown when a second `element`, `id` or
`pseudoElement` part is appended (the spec names it
`DuplicateSelectorPartError`). -/
def duplicateMsg : String :=
  "Element, id and pseudo-element should not occur more then one time inside the selector"

/-- Message of the error thrown by `validateOrder` (the spec names it
`OrderViolationError`). -/
def orderMsg : String :=
  "Selector parts should be arranged in the following order: element, id, class, attribute, pseudo-class, pseudo-element"

/-- The `for` loop inside `validateOrder`: walks the existing parts and
throws as soon as the new index is smaller than an existing index. -/
def validateOrderGo (newIndex : Int) : List CssPart → Except String Unit
  | [] => Except.ok ()
  | part :: rest =>
    if newIndex < jsIndexOf selectorOrder part.type then Except.error orderMsg
    else validateOrderGo newIndex rest

/-- `validateOrder(obj, newType)` from the source, acting on the `parts`
array of the object under construction: throws the ordering error when the
new part ranks strictly below an existing part, otherwise returns the
object (here: its parts) unchanged. -/
def validateOrder (parts : List CssPart) (newType : String) : Except String (List CssPart) :=
  match validateOrderGo (jsIndexOf selectorOrder newType) parts with
  | Except.ok _ => Except.ok parts
  | Except.error e => Except.error e

/-- A builder object. `plain parts` is an object whose (prototype-resolved)
`combined` property is absent and whose `parts` property is `parts`
(`none` models `undefined`, i.e. the pristine `cssSelectorBuilder` facade).
`comb s1 c s2 parts` is an object created by `combine`, whose own `combined`
record holds `selector1 = s1`, `combinator = c`, `selector2 = s2`, and whose
prototype-resolved `parts` property is `parts`. -/
inductive CssObj : Type where
  | plain (parts : Option (List CssPart))
  | comb (selector1 : CssObj) (combinator : String) (selector2 : CssObj)
      (parts : Option (List CssPart))
deriving DecidableEq, Repr

/-- The prototype-resolved `this.parts` property of a builder object. -/
def cssParts : CssObj → Option (List CssPart)
  | CssObj.plain parts => parts
  | CssObj.comb _ _ _ parts => parts

/-- `Object.create(this)` followed by assigning a fresh own `parts` array:
the new object keeps every other (inherited) property of the receiver and
carries `newParts` as its `parts`. -/
def withParts : CssObj → List CssPart → CssObj
  | CssObj.plain _, newParts => CssObj.plain (some newParts)
  | CssObj.comb s1 c s2 _, newParts => CssObj.comb s1 c s2 (some newParts)

/-- The root facade object `cssSelectorBuilder`: it owns no `parts` and no
`combined` property. -/
def cssSelectorBuilder : CssObj := CssObj.plain none

/-- `cssSelectorBuilder.element(value)`. -/
def cssSelectorBuilder.element (self : CssObj) (value : String) : Except String CssObj :=
  let parts := (cssParts self).getD []
  if parts.any (fun part => part.type == "element") then
    Except.error duplicateMsg
  else
    match validateOrder parts "element" with
    | Except.error e => Except.error e
    | Except.ok checked => Except.ok (withParts self (checked ++ [CssPart.mk "element" value]))

/-- `cssSelectorBuilder.id(value)`. -/
def cssSelectorBuilder.id (self : CssObj) (value : String) : Except String CssObj :=
  let parts := (cssParts self).getD []
  if parts.any (fun part => part.type == "id") then
    Except.error duplicateMsg
  else
    match validateOrder parts "id" with
    | Except.error e => Except.error e
    | Except.ok checked => Except.ok (withParts self (checked ++ [CssPart.mk "id" value]))

/-- `cssSelectorBuilder.class(value)` (no duplicate restriction). -/
def cssSelectorBuilder.«class» (self : CssObj) (value : String) : Except String CssObj :=
  let parts := (cssParts self).getD []
  match validateOrder parts "class" with
  | Except.error e => Except.error e
  | Except.ok checked => Except.ok (withParts self (checked ++ [CssPart.mk "class" value]))

/-- `cssSelectorBuilder.attr(value)` (no duplicate restriction). -/
def cssSelectorBuilder.attr (self : CssObj) (value : String) : Except String CssObj :=
  let parts := (cssParts self).getD []
  match validateOrder parts "attr" with
  | Except.error e => Except.error e
  | Except.ok checked => Except.ok (withParts self (checked ++ [CssPart.mk "attr" value]))

/-- `cssSelectorBuilder.pseudoClass(value)` (no duplicate restriction). -/
def cssSelectorBuilder.pseudoClass (self : CssObj) (value : String) : Except String CssObj :=
  let parts := (cssParts self).getD []
  match validateOrder parts "pseudoClass" with
  | Except.error e => Except.error e
  | Except.ok checked => Except.ok (withParts self (checked ++ [CssPart.mk "pseudoClass" value]))

/-- `cssSelectorBuilder.pseudoElement(value)`. -/
def cssSelectorBuilder.pseudoElement (self : CssObj) (value : String) : Except String CssObj :=
  let parts := (cssParts self).getD []
  if parts.any (fun part => part.type == "pseudoElement") then
    Except.error duplicateMsg
  else
    match validateOrder parts "pseudoElement" with
    | Except.error e => Except.error e
    | Except.ok checked => Except.ok (withParts self (checked ++ [CssPart.mk "pseudoElement" value]))

/-- `cssSelectorBuilder.combine(selector1, combinator, selector2)`: the new
object owns a `combined` record and inherits the receiver's `parts`. -/
def cssSelectorBuilder.combine (self : CssObj) (selector1 : CssObj) (combinator : String)
    (selector2 : CssObj) : CssObj :=
  CssObj.comb selector1 combinator selector2 (cssParts self)

/-- The `switch (part.type)` in `stringify` rendering a single part. -/
def renderPart (part : CssPart) : String :=
  if part.type = "element" then part.value
  else if part.type = "id" then "#" ++ part.value
  else if part.type = "class" then "." ++ part.value
  else if part.type = "attr" then "[" ++ part.value ++ "]"
  else if part.type = "pseudoClass" then ":" ++ part.value
  else if part.type = "pseudoElement" then "::" ++ part.value
  else ""

/-- The comparator rank order used by `stringify` via
`order.indexOf(a.type) - order.indexOf(b.type)`. -/
def jsSortLe (a b : CssPart) : Prop :=
  jsIndexOf selectorOrder a.type ≤ jsIndexOf selectorOrder b.type

instance : DecidableRel jsSortLe := fun a b =>
  inferInstanceAs (Decidable (jsIndexOf selectorOrder a.type ≤ jsIndexOf selectorOrder b.type))

/-- `cssSelectorBuilder.stringify()`: a combined object renders
`selector1 + " " + combinator + " " + selector2`; an object without a
`parts` property renders the empty string; otherwise the parts are stably
sorted by their rank in `selectorOrder` and rendered with no separator. -/
def stringify : CssObj → String
  | CssObj.comb s1 c s2 _ => stringify s1 ++ " " ++ c ++ " " ++ stringify s2
  | CssObj.plain none => ""
  | CssObj.plain (some parts) =>
    String.join ((List.insertionSort jsSortLe parts).map renderPart)

example :
    (cssSelectorBuilder.element cssSelectorBuilder "a").map stringify =
      Except.ok "a" := by rfl

example :
    ((cssSelectorBuilder.id cssSelectorBuilder "main").bind
        (fun b => cssSelectorBuilder.«class» b "container")).map stringify =
      Except.ok "#main.container" := by rfl

/-! ### Append operations as data

To quantify over "every append call" the six fragment-appending methods are
reified as the inductive `Op`; `runOp` dispatches an `Op` to the method it
names. -/

/-- One append call: the method name together with its string argument. -/
inductive Op : Type where
  | element (value : String)
  | id (value : String)
  | «class» (value : String)
  | attr (value : String)
  | pseudoClass (value : String)
  | pseudoElement (value : String)
deriving DecidableEq, Repr

/-- The `type` tag the operation pushes. -/
def Op.typeName : Op → String
  | Op.element _ => "element"
  | Op.id _ => "id"
  | Op.«class» _ => "class"
  | Op.attr _ => "attr"
  | Op.pseudoClass _ => "pseudoClass"
  | Op.pseudoElement _ => "pseudoElement"

/-- The string argument of the operation. -/
def Op.arg : Op → String
  | Op.element v => v
  | Op.id v => v
  | Op.«class» v => v
  | Op.attr v => v
  | Op.pseudoClass v => v
  | Op.pseudoElement v => v

/-- Whether the method begins with the duplicate-occurrence check (`element`,
`id` and `pseudoElement` do; `class`, `attr` and `pseudoClass` do not). -/
def Op.hasDupCheck : Op → Bool
  | Op.element _ => true
  | Op.id _ => true
  | Op.pseudoElement _ => true
  | _ => false

/-- Dispatch an `Op` to the builder method it names. -/
def runOp (self : CssObj) : Op → Except String CssObj
  | Op.element v => cssSelectorBuilder.element self v
  | Op.id v => cssSelectorBuilder.id self v
  | Op.«class» v => cssSelectorBuilder.«class» self v
  | Op.attr v => cssSelectorBuilder.attr self v
  | Op.pseudoClass v => cssSelectorBuilder.pseudoClass self v
  | Op.pseudoElement v => cssSelectorBuilder.pseudoElement self v

/-- Run a chain of append calls left to right, stopping at the first thrown
error (an error aborts the whole chain, as a thrown `Error` does). -/
def runOps (self : CssObj) : List Op → Except String CssObj
  | [] => Except.ok self
  | op :: rest =>
    match runOp self op with
    | Except.error e => Except.error e
    | Except.ok b => runOps b rest

/-- The shape shared by all six append methods: an optional duplicate check,
then `validateOrder`, then the push onto the copied array. Each method is
this with its own `dup` flag and `type` tag. -/
def genericAppend (dup : Bool) (t : String) (self : CssObj) (value : String) :
    Except String CssObj :=
  let parts := (cssParts self).getD []
  if dup && parts.any (fun part => part.type == t) then
    Except.error duplicateMsg
  else
    match validateOrder parts t with
    | Except.error e => Except.error e
    | Except.ok checked => Except.ok (withParts self (checked ++ [CssPart.mk t value]))

theorem runOp_eq_genericAppend (self : CssObj) (op : Op) :
    runOp self op = genericAppend op.hasDupCheck op.typeName self op.arg := by
  cases op <;> rfl

/-! ### Characterisation of `validateOrder` -/

theorem validateOrderGo_ok_iff (n : Int) (parts : List CssPart) :
    validateOrderGo n parts = Except.ok () ↔
      ∀ p ∈ parts, jsIndexOf selectorOrder p.type ≤ n := by
  induction parts with
  | nil => simp [validateOrderGo]
  | cons part rest ih =>
    by_cases h : n < jsIndexOf selectorOrder part.type
    · simp [validateOrderGo, h]
    · simp [validateOrderGo, h, ih, not_lt.mp h]

theorem validateOrderGo_error_iff (n : Int) (parts : List CssPart) (e : String) :
    validateOrderGo n parts = Except.error e ↔
      e = orderMsg ∧ ∃ p ∈ parts, n < jsIndexOf selectorOrder p.type := by
  induction parts with
  | nil => simp [validateOrderGo]
  | cons part rest ih =>
    by_cases h : n < jsIndexOf selectorOrder part.type
    · simp [validateOrderGo, h]
      exact eq_comm
    · simp [validateOrderGo, h, ih]

theorem validateOrder_ok_iff (parts : List CssPart) (t : String) (out : List CssPart) :
    validateOrder parts t = Except.ok out ↔
      out = parts ∧
        ∀ p ∈ parts, jsIndexOf selectorOrder p.type ≤ jsIndexOf selectorOrder t := by
  unfold validateOrder
  rcases hgo : validateOrderGo (jsIndexOf selectorOrder t) parts with e | u
  · rw [validateOrderGo_error_iff] at hgo
    simp only [Except.ok.injEq]
    constructor
    · intro h
      exact absurd h (by simp)
    · rintro ⟨rfl, hall⟩
      rcases hgo.2 with ⟨p, hp, hlt⟩
      exact absurd hlt (not_lt.mpr (hall p hp))
  · have hall := (validateOrderGo_ok_iff _ _).mp hgo
    simp only [Except.ok.injEq]
    constructor
    · intro h
      exact ⟨h.symm, hall⟩
    · rintro ⟨rfl, _⟩
      rfl

theorem validateOrder_error_iff (parts : List CssPart) (t : String) (e : String) :
    validateOrder parts t = Except.error e ↔
      e = orderMsg ∧
        ∃ p ∈ parts, jsIndexOf selectorOrder t < jsIndexOf selectorOrder p.type := by
  unfold validateOrder
  rcases hgo : validateOrderGo (jsIndexOf selectorOrder t) parts with e' | u
  · rw [validateOrderGo_error_iff] at hgo
    rcases hgo with ⟨rfl, hex⟩
    simp [hex]
    exact eq_comm
  · rw [validateOrderGo_ok_iff] at hgo
    simp only [reduceCtorEq, false_iff, not_and]
    rintro rfl
    rintro ⟨p, hp, hlt⟩
    exact absurd hlt (not_lt.mpr (hgo p hp))

/-- The two error messages are distinct strings. -/
theorem duplicateMsg_ne_orderMsg : duplicateMsg ≠ orderMsg := by decide

theorem genericAppend_eq (dup : Bool) (t : String) (self : CssObj) (value : String) :
    genericAppend dup t self value =
      if dup ∧ ∃ p ∈ (cssParts self).getD [], p.type = t then
        Except.error duplicateMsg
      else if ∃ p ∈ (cssParts self).getD [],
          jsIndexOf selectorOrder t < jsIndexOf selectorOrder p.type then
        Except.error orderMsg
      else
        Except.ok (withParts self ((cssParts self).getD [] ++ [CssPart.mk t value])) := by
  by_cases h1 : dup ∧ ∃ p ∈ (cssParts self).getD [], p.type = t
  · rw [if_pos h1]
    obtain ⟨hdup, p, hp, hpt⟩ := h1
    have hany : ((cssParts self).getD []).any (fun part => part.type == t) = true := by
      simp only [List.any_eq_true, beq_iff_eq]
      exact ⟨p, hp, hpt⟩
    simp [genericAppend, hdup, hany]
  · rw [if_neg h1]
    have hc : (dup && ((cssParts self).getD []).any (fun part => part.type == t)) = false := by
      by_contra hcon
      rw [Bool.not_eq_false, Bool.and_eq_true, List.any_eq_true] at hcon
      refine h1 ⟨hcon.1, ?_⟩
      obtain ⟨p, hp, hpt⟩ := hcon.2
      exact ⟨p, hp, beq_iff_eq.mp hpt⟩
    by_cases h2 : ∃ p ∈ (cssParts self).getD [],
        jsIndexOf selectorOrder t < jsIndexOf selectorOrder p.type
    · rw [if_pos h2]
      have hv : validateOrder ((cssParts self).getD []) t = Except.error orderMsg :=
        (validateOrder_error_iff _ _ _).mpr ⟨rfl, h2⟩
      simp [genericAppend, hc, hv]
    · rw [if_neg h2]
      have hall : ∀ p ∈ (cssParts self).getD [],
          jsIndexOf selectorOrder p.type ≤ jsIndexOf selectorOrder t := by
        intro p hp
        by_contra hlt
        exact h2 ⟨p, hp, not_le.mp hlt⟩
      have hv : validateOrder ((cssParts self).getD []) t =
          Except.ok ((cssParts self).getD []) :=
        (validateOrder_ok_iff _ _ _).mpr ⟨rfl, hall⟩
      simp [genericAppend, hc, hv]

/-! ### Spec-side definitions

These follow the specification's words, to be compared with the embedded
source functions: canonical rank `Element(0) < Id(1) < Class(2) <
Attribute(3) < PseudoClass(4) < PseudoElement(5)`, the per-kind rendering
table, and a stable sort by canonical rank. -/

/-- Canonical rank of a fragment kind, as the spec assigns it (the spec has
no seventh kind; the final branch merely totalises the function). -/
def specRank (t : String) : Nat :=
  if t = "element" then 0
  else if t = "id" then 1
  else if t = "class" then 2
  else if t = "attr" then 3
  else if t = "pseudoClass" then 4
  else if t = "pseudoElement" then 5
  else 6

/-- Rank comparison of two fragments, per the spec. -/
def specLe (a b : CssPart) : Prop := specRank a.type ≤ specRank b.type

instance : DecidableRel specLe := fun a b =>
  inferInstanceAs (Decidable (specRank a.type ≤ specRank b.type))

/-- The rendering table of the spec: Element raw text, Id `#`+text, Class
`.`+text, Attribute `[`+text+`]`, PseudoClass `:`+text, PseudoElement
`::`+text. -/
def specRender (part : CssPart) : String :=
  if part.type = "element" then part.value
  else if part.type = "id" then "#" ++ part.value
  else if part.type = "class" then "." ++ part.value
  else if part.type = "attr" then "[" ++ part.value ++ "]"
  else if part.type = "pseudoClass" then ":" ++ part.value
  else if part.type = "pseudoElement" then "::" ++ part.value
  else ""

/-- The spec's formula for a simple selector: stable sort by canonical rank
(insertion sort is stable), then concatenate the renderings with no
separator. -/
def specStringify (parts : List CssPart) : String :=
  String.join ((List.insertionSort specLe parts).map specRender)

theorem renderPart_eq_specRender : renderPart = specRender := rfl

/-- On the six tag strings, the `indexOf` rank of the source agrees with the
canonical rank of the spec. -/
theorem jsIndexOf_eq_specRank {t : String} (h : t ∈ selectorOrder) :
    jsIndexOf selectorOrder t = (specRank t : Int) := by
  fin_cases h <;> rfl

/-! ### The reachability invariant -/

/-- Every builder reachable from the root by successful append calls is a
`plain` object whose parts all carry one of the six tags and are already
arranged in nondecreasing `indexOf` rank. -/
def GoodState (b : CssObj) : Prop :=
  (∃ ps, b = CssObj.plain ps) ∧
  (∀ p ∈ (cssParts b).getD [], p.type ∈ selectorOrder) ∧
  List.Sorted jsSortLe ((cssParts b).getD [])

theorem goodState_root : GoodState cssSelectorBuilder :=
  ⟨⟨none, rfl⟩, by simp [cssSelectorBuilder, cssParts], by
    simp [cssSelectorBuilder, cssParts]⟩

theorem Op.typeName_mem (op : Op) : op.typeName ∈ selectorOrder := by
  cases op <;> simp [Op.typeName, selectorOrder]

theorem runOp_ok_goodState {b b2 : CssObj} {op : Op} (hg : GoodState b)
    (h : runOp b op = Except.ok b2) : GoodState b2 := by
  rw [runOp_eq_genericAppend, genericAppend_eq] at h
  split_ifs at h with h1 h2
  have hb2 : b2 = withParts b ((cssParts b).getD [] ++ [CssPart.mk op.typeName op.arg]) := by
    cases h
    rfl
  obtain ⟨ps, rfl⟩ := hg.1
  subst hb2
  refine ⟨⟨_, rfl⟩, ?_, ?_⟩
  · intro p hp
    simp only [withParts, cssParts, Option.getD_some] at hp
    rcases List.mem_append.mp hp with hmem | hmem
    · exact hg.2.1 p hmem
    · rcases List.mem_singleton.mp hmem with rfl
      exact op.typeName_mem
  · simp only [withParts, cssParts, Option.getD_some]
    refine List.pairwise_append.mpr ⟨hg.2.2, List.pairwise_singleton _ _, ?_⟩
    intro a ha b hb
    rcases List.mem_singleton.mp hb with rfl
    show jsIndexOf selectorOrder a.type ≤ jsIndexOf selectorOrder op.typeName
    by_contra hcon
    exact h2 ⟨a, ha, not_le.mp hcon⟩

theorem runOps_ok_goodState {b b2 : CssObj} {ops : List Op} (hg : GoodState b)
    (h : runOps b ops = Except.ok b2) : GoodState b2 := by
  induction ops generalizing b with
  | nil =>
    simp only [runOps] at h
    cases h
    exact hg
  | cons op rest ih =>
    simp only [runOps] at h
    rcases hop : runOp b op with e | b1
    · rw [hop] at h
      cases h
    · rw [hop] at h
      exact ih (runOp_ok_goodState hg hop) h

/-- A good state's parts are sorted for the spec's comparator as well. -/
theorem goodState_sorted_specLe {b : CssObj} (hg : GoodState b) :
    List.Sorted specLe ((cssParts b).getD []) := by
  refine List.Pairwise.imp_of_mem ?_ hg.2.2
  intro a c ha hc hle
  have hat := jsIndexOf_eq_specRank (hg.2.1 a ha)
  have hct := jsIndexOf_eq_specRank (hg.2.1 c hc)
  have : (specRank a.type : Int) ≤ (specRank c.type : Int) := by
    rw [← hat, ← hct]
    exact hle
  exact_mod_cast this

theorem element_eq_genericAppend (b : CssObj) (v : String) :
    cssSelectorBuilder.element b v = genericAppend true "element" b v := rfl

theorem id_eq_genericAppend (b : CssObj) (v : String) :
    cssSelectorBuilder.id b v = genericAppend true "id" b v := rfl

theorem class_eq_genericAppend (b : CssObj) (v : String) :
    cssSelectorBuilder.«class» b v = genericAppend false "class" b v := rfl

theorem attr_eq_genericAppend (b : CssObj) (v : String) :
    cssSelectorBuilder.attr b v = genericAppend false "attr" b v := rfl

theorem pseudoClass_eq_genericAppend (b : CssObj) (v : String) :
    cssSelectorBuilder.pseudoClass b v = genericAppend false "pseudoClass" b v := rfl

theorem pseudoElement_eq_genericAppend (b : CssObj) (v : String) :
    cssSelectorBuilder.pseudoElement b v = genericAppend true "pseudoElement" b v := rfl

/-- C1: for every simple selector built by a valid sequence of append calls,
`stringify` renders the fragments sorted by canonical rank with a stable
sort (per `specStringify`, the formula of the spec), each fragment rendered
by the per-kind table and concatenated with no separator; equivalently, for
such selectors the fragments already sit in canonical order, so the output
also equals the rendering in insertion order. -/
theorem c1_stringify_canonical_order (ops : List Op) (b : CssObj)
    (h : runOps cssSelectorBuilder ops = Except.ok b) :
    stringify b = specStringify ((cssParts b).getD []) ∧
    stringify b = String.join (((cssParts b).getD []).map specRender) := by
  have hg := runOps_ok_goodState goodState_root h
  obtain ⟨ps, hps⟩ := hg.1
  subst hps
  have hjs := List.Sorted.insertionSort_eq hg.2.2
  have hspec := List.Sorted.insertionSort_eq (goodState_sorted_specLe hg)
  simp only [cssParts] at hjs hspec ⊢
  cases ps with
  | none => exact ⟨rfl, rfl⟩
  | some parts =>
    simp only [Option.getD_some] at hjs hspec ⊢
    constructor
    · show String.join ((List.insertionSort jsSortLe parts).map renderPart) = _
      rw [hjs, specStringify, hspec, renderPart_eq_specRender]
    · show String.join ((List.insertionSort jsSortLe parts).map renderPart) = _
      rw [hjs, renderPart_eq_specRender]

/-- Witness for C1 at the concrete chain
`element('a').attr('href').pseudoClass('focus')`. -/
theorem c1_stringify_canonical_order_witness :
    runOps cssSelectorBuilder [Op.element "a", Op.attr "href", Op.pseudoClass "focus"] =
      Except.ok (CssObj.plain (some [CssPart.mk "element" "a", CssPart.mk "attr" "href",
        CssPart.mk "pseudoClass" "focus"])) ∧
    (stringify (CssObj.plain (some [CssPart.mk "element" "a", CssPart.mk "attr" "href",
        CssPart.mk "pseudoClass" "focus"])) =
      specStringify [CssPart.mk "element" "a", CssPart.mk "attr" "href",
        CssPart.mk "pseudoClass" "focus"] ∧
     stringify (CssObj.plain (some [CssPart.mk "element" "a", CssPart.mk "attr" "href",
        CssPart.mk "pseudoClass" "focus"])) =
      String.join ([CssPart.mk "element" "a", CssPart.mk "attr" "href",
        CssPart.mk "pseudoClass" "focus"].map specRender)) :=
  ⟨by rfl,
   c1_stringify_canonical_order [Op.element "a", Op.attr "href", Op.pseudoClass "focus"]
     (CssObj.plain (some [CssPart.mk "element" "a", CssPart.mk "attr" "href",
       CssPart.mk "pseudoClass" "focus"])) (by rfl)⟩

/-- C2 counterexample: on the builder whose parts are `[id, class]` (built
by `id('a').class('b')`), calling `id('c')` appends a fragment whose rank 1
is strictly below the rank 2 of the present `class` fragment, yet the error
raised is the duplicate error, not the ordering error. -/
theorem c2_counterexample :
    (∃ p ∈ (cssParts (CssObj.plain (some [CssPart.mk "id" "a",
          CssPart.mk "class" "b"]))).getD [],
        jsIndexOf selectorOrder "id" < jsIndexOf selectorOrder p.type) ∧
    cssSelectorBuilder.id
        (CssObj.plain (some [CssPart.mk "id" "a", CssPart.mk "class" "b"])) "c" =
      Except.error duplicateMsg ∧
    duplicateMsg ≠ orderMsg := by
  exact ⟨by decide, by rfl, duplicateMsg_ne_orderMsg⟩

/-- C2 (amended): appending a fragment whose canonical rank is strictly
lower than the rank of some present fragment always raises an error; that
error is `OrderViolationError` unless the method carries the duplicate check
(element, id, pseudoElement) and a same-kind fragment is already present, in
which case `DuplicateSelectorPartError` is raised instead; and appending a
fragment of equal or higher rank never raises `OrderViolationError`. -/
theorem c2_order_violation_amended (b : CssObj) (op : Op) :
    ((∃ p ∈ (cssParts b).getD [],
        jsIndexOf selectorOrder op.typeName < jsIndexOf selectorOrder p.type) →
      ¬(op.hasDupCheck = true ∧ ∃ p ∈ (cssParts b).getD [], p.type = op.typeName) →
      runOp b op = Except.error orderMsg) ∧
    ((∃ p ∈ (cssParts b).getD [],
        jsIndexOf selectorOrder op.typeName < jsIndexOf selectorOrder p.type) →
      (op.hasDupCheck = true ∧ ∃ p ∈ (cssParts b).getD [], p.type = op.typeName) →
      runOp b op = Except.error duplicateMsg) ∧
    ((∀ p ∈ (cssParts b).getD [],
        jsIndexOf selectorOrder p.type ≤ jsIndexOf selectorOrder op.typeName) →
      runOp b op ≠ Except.error orderMsg) := by
  simp only [runOp_eq_genericAppend, genericAppend_eq]
  refine ⟨?_, ?_, ?_⟩
  · intro hex hnd
    rw [if_neg hnd, if_pos hex]
  · intro _ hd
    rw [if_pos hd]
  · intro hall
    split_ifs with h1 h2
    · intro hcon
      injection hcon with hcon
      exact duplicateMsg_ne_orderMsg hcon
    · obtain ⟨p, hp, hlt⟩ := h2
      exact absurd hlt (not_lt.mpr (hall p hp))
    · intro hcon
      exact Except.noConfusion hcon

/-- Witness for C2 (amended): on parts `[class]`, appending `id` (rank 1
below rank 2) raises the ordering error. -/
theorem c2_order_violation_amended_witness :
    (∃ p ∈ (cssParts (CssObj.plain (some [CssPart.mk "class" "b"]))).getD [],
        jsIndexOf selectorOrder (Op.id "x").typeName < jsIndexOf selectorOrder p.type) ∧
    runOp (CssObj.plain (some [CssPart.mk "class" "b"])) (Op.id "x") =
      Except.error orderMsg :=
  ⟨by decide,
   (c2_order_violation_amended (CssObj.plain (some [CssPart.mk "class" "b"]))
       (Op.id "x")).1 (by decide) (by decide)⟩

/-- For the three methods without the duplicate check the first branch of
`genericAppend_eq` is vacuous. -/
theorem genericAppend_false_dup (t : String) (self : CssObj) (value : String) :
    genericAppend false t self value =
      if ∃ p ∈ (cssParts self).getD [],
          jsIndexOf selectorOrder t < jsIndexOf selectorOrder p.type then
        Except.error orderMsg
      else Except.ok (withParts self ((cssParts self).getD [] ++ [CssPart.mk t value])) := by
  rw [genericAppend_eq]
  have h : ¬(false = true ∧ ∃ p ∈ (cssParts self).getD [], p.type = t) := by simp
  rw [if_neg h]

/-- C3: a builder already holding an element (resp. id, resp. pseudo-element)
fragment raises the duplicate error when `element` (resp. `id`, resp.
`pseudoElement`) is called again; `class`, `attr` and `pseudoClass` are never
subject to the duplicate error (their only possible failure is the ordering
error). -/
theorem c3_duplicate_rules (b : CssObj) (v : String) :
    ((∃ p ∈ (cssParts b).getD [], p.type = "element") →
      cssSelectorBuilder.element b v = Except.error duplicateMsg) ∧
    ((∃ p ∈ (cssParts b).getD [], p.type = "id") →
      cssSelectorBuilder.id b v = Except.error duplicateMsg) ∧
    ((∃ p ∈ (cssParts b).getD [], p.type = "pseudoElement") →
      cssSelectorBuilder.pseudoElement b v = Except.error duplicateMsg) ∧
    (∀ e, cssSelectorBuilder.«class» b v = Except.error e → e = orderMsg) ∧
    (∀ e, cssSelectorBuilder.attr b v = Except.error e → e = orderMsg) ∧
    (∀ e, cssSelectorBuilder.pseudoClass b v = Except.error e → e = orderMsg) := by
  refine ⟨?_, ?_, ?_, ?_, ?_, ?_⟩
  · intro hex
    rw [element_eq_genericAppend, genericAppend_eq, if_pos ⟨rfl, hex⟩]
  · intro hex
    rw [id_eq_genericAppend, genericAppend_eq, if_pos ⟨rfl, hex⟩]
  · intro hex
    rw [pseudoElement_eq_genericAppend, genericAppend_eq, if_pos ⟨rfl, hex⟩]
  · intro e he
    rw [class_eq_genericAppend, genericAppend_false_dup] at he
    split_ifs at he with h2
    injection he with he
    exact he.symm
  · intro e he
    rw [attr_eq_genericAppend, genericAppend_false_dup] at he
    split_ifs at he with h2
    injection he with he
    exact he.symm
  · intro e he
    rw [pseudoClass_eq_genericAppend, genericAppend_false_dup] at he
    split_ifs at he with h2
    injection he with he
    exact he.symm

/-- Witness for C3: a second `element` on `element('div')` raises the
duplicate error. -/
theorem c3_duplicate_rules_witness :
    (∃ p ∈ (cssParts (CssObj.plain (some [CssPart.mk "element" "div"]))).getD [],
        p.type = "element") ∧
    cssSelectorBuilder.element (CssObj.plain (some [CssPart.mk "element" "div"])) "span" =
      Except.error duplicateMsg :=
  ⟨by decide,
   (c3_duplicate_rules (CssObj.plain (some [CssPart.mk "element" "div"])) "span").1
     (by decide)⟩

/-- C10: in `element`, `id` and `pseudoElement`, the duplicate check runs
before the order check: when a same-kind fragment is present and some
present fragment also ranks strictly above the appended kind, the error
raised is the duplicate error. -/
theorem c10_duplicate_before_order (b : CssObj) (v : String) :
    ((∃ p ∈ (cssParts b).getD [], p.type = "element") ∧
       (∃ p ∈ (cssParts b).getD [],
          jsIndexOf selectorOrder "element" < jsIndexOf selectorOrder p.type) →
      cssSelectorBuilder.element b v = Except.error duplicateMsg) ∧
    ((∃ p ∈ (cssParts b).getD [], p.type = "id") ∧
       (∃ p ∈ (cssParts b).getD [],
          jsIndexOf selectorOrder "id" < jsIndexOf selectorOrder p.type) →
      cssSelectorBuilder.id b v = Except.error duplicateMsg) ∧
    ((∃ p ∈ (cssParts b).getD [], p.type = "pseudoElement") ∧
       (∃ p ∈ (cssParts b).getD [],
          jsIndexOf selectorOrder "pseudoElement" < jsIndexOf selectorOrder p.type) →
      cssSelectorBuilder.pseudoElement b v = Except.error duplicateMsg) := by
  refine ⟨?_, ?_, ?_⟩
  · rintro ⟨hdup, _⟩
    rw [element_eq_genericAppend, genericAppend_eq, if_pos ⟨rfl, hdup⟩]
  · rintro ⟨hdup, _⟩
    rw [id_eq_genericAppend, genericAppend_eq, if_pos ⟨rfl, hdup⟩]
  · rintro ⟨hdup, _⟩
    rw [pseudoElement_eq_genericAppend, genericAppend_eq, if_pos ⟨rfl, hdup⟩]

/-- Witness for C10: on parts `[id('main'), class('x')]`, the call
`id('y')` violates both the uniqueness rule (an id is present) and the
ordering rule (class ranks above id); the duplicate error is raised. -/
theorem c10_duplicate_before_order_witness :
    ((∃ p ∈ (cssParts (CssObj.plain (some [CssPart.mk "id" "main",
          CssPart.mk "class" "x"]))).getD [], p.type = "id") ∧
      (∃ p ∈ (cssParts (CssObj.plain (some [CssPart.mk "id" "main",
          CssPart.mk "class" "x"]))).getD [],
        jsIndexOf selectorOrder "id" < jsIndexOf selectorOrder p.type)) ∧
    cssSelectorBuilder.id
        (CssObj.plain (some [CssPart.mk "id" "main", CssPart.mk "class" "x"])) "y" =
      Except.error duplicateMsg :=
  ⟨by decide,
   (c10_duplicate_before_order
       (CssObj.plain (some [CssPart.mk "id" "main", CssPart.mk "class" "x"])) "y").2.1
     (by decide)⟩

/-- C4: `combine` stringifies as left, a single space, the combinator, a
single space, then right, for every combinator string, including the
descendant combinator (a space, yielding the spaces literally); in
particular `combine(A, '+', B)` stringifies to
`stringify(A) + " + " + stringify(B)`. -/
theorem c4_combine_stringify (self selector1 : CssObj) (combinator : String)
    (selector2 : CssObj) :
    stringify (cssSelectorBuilder.combine self selector1 combinator selector2) =
      stringify selector1 ++ " " ++ combinator ++ " " ++ stringify selector2 ∧
    stringify (cssSelectorBuilder.combine self selector1 "+" selector2) =
      stringify selector1 ++ " + " ++ stringify selector2 := by
  constructor
  · rfl
  · show stringify selector1 ++ " " ++ "+" ++ " " ++ stringify selector2 = _
    simp only [String.append_assoc]
    congr 1

/-- C7: an object with no fragments stringifies to the empty string: both
the untouched root builder (whose `parts` property is absent) and a simple
selector holding an empty parts array. -/
theorem c7_empty_stringify :
    stringify cssSelectorBuilder = "" ∧
    stringify (CssObj.plain (some [])) = "" :=
  ⟨rfl, rfl⟩

/-! ### Object-store model for the frame claims

In JavaScript an already-returned builder could only be disturbed through
mutation of its `parts` array. To state that the append methods mutate no
existing object, the heap of `parts` arrays is made explicit: the store
lists every allocated array, an object holds the index of its array
(`none` for the root, which has no `parts`), and one append call
(1) reads the receiver's array, (2) allocates a fresh copy of it
(`obj.parts = [...this.parts]`), (3) runs the checks, and (4) on success
pushes onto the fresh copy only. -/

/-- The common body of the six append methods acting on the explicit store
of `parts` arrays (`dup` is true for `element`/`id`/`pseudoElement`, `t` is
the pushed type tag): returns the store after the call together with the
call's result, the new object's array index or the thrown message. -/
def storeAppend (dup : Bool) (t : String) (store : List (List CssPart))
    (selfParts : Option Nat) (value : String) :
    List (List CssPart) × Except String Nat :=
  let src : List CssPart :=
    match selfParts with
    | some i => store.getD i []
    | none => []
  let store1 := store ++ [src]
  let idx := store.length
  if dup && src.any (fun part => part.type == t) then
    (store1, Except.error duplicateMsg)
  else
    match validateOrder src t with
    | Except.error e => (store1, Except.error e)
    | Except.ok checked =>
      (store1.set idx (checked ++ [CssPart.mk t value]), Except.ok idx)

/-- No append call, successful or not, changes any previously allocated
array: the store after the call agrees with the store before it on every
index that existed before. -/
theorem storeAppend_frame (dup : Bool) (t : String) (store : List (List CssPart))
    (selfParts : Option Nat) (value : String) :
    ∀ i < store.length,
      (storeAppend dup t store selfParts value).1[i]? = store[i]? := by
  intro i hi
  have happ : ∀ src : List CssPart, (store ++ [src])[i]? = store[i]? := fun _ =>
    List.getElem?_append_left hi
  have hset : ∀ (src x : List CssPart),
      ((store ++ [src]).set store.length x)[i]? = store[i]? := by
    intro src x
    rw [List.getElem?_set_ne (Nat.ne_of_gt hi), happ]
  simp only [storeAppend]
  split
  · exact happ _
  · split
    · exact happ _
    · exact hset _ _

/-- C5: a successful append returns a builder backed by a freshly allocated
array (its index did not exist before the call) and leaves every previously
allocated array untouched, so the receiver — and every other previously
returned builder — still stringifies exactly as before the call. -/
theorem c5_append_immutable (dup : Bool) (t : String) (store : List (List CssPart))
    (selfParts : Option Nat) (value : String) (idx : Nat)
    (h : (storeAppend dup t store selfParts value).2 = Except.ok idx) :
    idx = store.length ∧
    ∀ i < store.length,
      (storeAppend dup t store selfParts value).1[i]? = store[i]? ∧
      stringify (CssObj.plain
          (some ((storeAppend dup t store selfParts value).1.getD i []))) =
        stringify (CssObj.plain (some (store.getD i []))) := by
  have hgetD : ∀ i < store.length,
      (storeAppend dup t store selfParts value).1.getD i [] = store.getD i [] := by
    intro i hi
    rw [List.getD_eq_getElem?_getD, List.getD_eq_getElem?_getD,
      storeAppend_frame dup t store selfParts value i hi]
  constructor
  · simp only [storeAppend] at h
    split at h
    · exact Except.noConfusion h
    · split at h
      · exact Except.noConfusion h
      · injection h with h
        exact h.symm
  · intro i hi
    exact ⟨storeAppend_frame dup t store selfParts value i hi, by rw [hgetD i hi]⟩

/-- Witness for C5: appending `id('x')` to the builder backed by array 0
(`element('div')`) allocates array 1 and leaves array 0 as it was. -/
theorem c5_append_immutable_witness :
    (storeAppend true "id" [[CssPart.mk "element" "div"]] (some 0) "x").2 =
      Except.ok 1 ∧
    (storeAppend true "id" [[CssPart.mk "element" "div"]] (some 0) "x").1[0]? =
      [[CssPart.mk "element" "div"]][0]? :=
  ⟨by rfl,
   (((c5_append_immutable true "id" [[CssPart.mk "element" "div"]] (some 0) "x" 1
       (by rfl)).2 0 (by decide)).1)⟩

/-- C6: an append that fails (with either error) mutates nothing: every
array allocated before the call, in particular the receiver's, is unchanged
afterwards, so no previously returned builder can observe a partial
fragment list. -/
theorem c6_failed_append_atomic (dup : Bool) (t : String) (store : List (List CssPart))
    (selfParts : Option Nat) (value : String) (e : String)
    (h : (storeAppend dup t store selfParts value).2 = Except.error e) :
    ∀ i < store.length,
      (storeAppend dup t store selfParts value).1[i]? = store[i]? ∧
      stringify (CssObj.plain
          (some ((storeAppend dup t store selfParts value).1.getD i []))) =
        stringify (CssObj.plain (some (store.getD i []))) := by
  intro i hi
  refine ⟨storeAppend_frame dup t store selfParts value i hi, ?_⟩
  rw [List.getD_eq_getElem?_getD, List.getD_eq_getElem?_getD,
    storeAppend_frame dup t store selfParts value i hi]

/-- Witness for C6: appending `id('y')` to the builder backed by array 0
(`class('a')`) throws the ordering error and leaves array 0 as it was. -/
theorem c6_failed_append_atomic_witness :
    (storeAppend true "id" [[CssPart.mk "class" "a"]] (some 0) "y").2 =
      Except.error orderMsg ∧
    (storeAppend true "id" [[CssPart.mk "class" "a"]] (some 0) "y").1[0]? =
      [[CssPart.mk "class" "a"]][0]? :=
  ⟨by rfl,
   ((c6_failed_append_atomic true "id" [[CssPart.mk "class" "a"]] (some 0) "y"
       orderMsg (by rfl)) 0 (by decide)).1⟩

/-! ### The JSON helpers `getJSON` and `fromJSON`

The source delegates to the platform: `getJSON(obj)` is `JSON.stringify(obj)`
and `fromJSON(proto, json)` is `Object.create(proto)` + `JSON.parse(json)` +
`Object.assign`. The platform functions are not part of the repository, so
they are modelled from the spec: values are the JSON value tree `JValue`
(numbers restricted to integers; the spec treats numeric fields as plain
data), serialization is the canonical text encoding with object keys in
insertion order and no whitespace, and parsing is a recursive-descent reader
of that grammar that fails on malformed text. Well-formedness of a JSON text
is modelled operationally: a text is well-formed when `jsonParse` accepts
it. Simplifications of the model: only quote and backslash are escaped on
output (named escapes are still accepted on input; `\u` escapes and
number forms with fraction or exponent are not), and nesting deeper than the
fuel `2*length+2` is rejected. -/

/-- A JSON value: the shape of the data `JSON.parse` produces and
`JSON.stringify` consumes. -/
inductive JValue : Type where
  | jnull
  | jbool (b : Bool)
  | jnum (n : Int)
  | jstr (s : String)
  | jarr (items : List JValue)
  | jobj (fields : List (String × JValue))

/-- The decimal digit `d` as a character. -/
def digitChar (d : Nat) : Char := Char.ofNat (48 + d)

/-- Decimal digits of `n`, most significant first; `fuel` bounds the
recursion (any `fuel > n` is enough). -/
def natToDigits : Nat → Nat → List Char
  | 0, _ => []
  | fuel+1, n =>
    if n < 10 then [digitChar n]
    else natToDigits fuel (n / 10) ++ [digitChar (n % 10)]

/-- Decimal rendering of a natural number. -/
def natChars (n : Nat) : List Char := natToDigits (n + 1) n

/-- Decimal rendering of an integer (`-` sign for negatives). -/
def intChars (n : Int) : List Char :=
  if n < 0 then '-' :: natChars (-n).toNat else natChars n.toNat

/-- JSON string escaping of one character: quote and backslash get a
backslash escape, everything else passes through. -/
def escapeChar (c : Char) : List Char :=
  if c = '"' then ['\\', '"']
  else if c = '\\' then ['\\', '\\']
  else [c]

/-- JSON string escaping of a character sequence. -/
def escapeChars : List Char → List Char
  | [] => []
  | c :: rest => escapeChar c ++ escapeChars rest

mutual

/-- Modelled from the spec: the canonical textual JSON encoding produced by
`JSON.stringify` — object key order is the insertion order of the fields,
arrays are encoded positionally, no whitespace is emitted. -/
def stringifyChars : JValue → List Char
  | JValue.jnull => ['n', 'u', 'l', 'l']
  | JValue.jbool true => ['t', 'r', 'u', 'e']
  | JValue.jbool false => ['f', 'a', 'l', 's', 'e']
  | JValue.jnum n => intChars n
  | JValue.jstr s => '"' :: escapeChars s.data ++ ['"']
  | JValue.jarr items => '[' :: stringifyItems items ++ [']']
  | JValue.jobj fields => '{' :: stringifyFields fields ++ ['}']

/-- Comma-separated encoding of array items. -/
def stringifyItems : List JValue → List Char
  | [] => []
  | [v] => stringifyChars v
  | v :: rest => stringifyChars v ++ ',' :: stringifyItems rest

/-- Comma-separated encoding of object fields, `"key":value` each. -/
def stringifyFields : List (String × JValue) → List Char
  | [] => []
  | [kv] => '"' :: escapeChars kv.1.data ++ '"' :: ':' :: stringifyChars kv.2
  | kv :: rest =>
    '"' :: escapeChars kv.1.data ++ '"' :: ':' :: stringifyChars kv.2 ++
      ',' :: stringifyFields rest

end

/-- `getJSON(obj)` from the source: `JSON.stringify(obj)`. -/
def getJSON (obj : JValue) : String := String.mk (stringifyChars obj)

/-- The message carried by the error the parser throws on malformed text
(the spec names the failure `ParseError`). -/
def parseErrorMsg : String := "Unexpected token in JSON"

/-- JSON insignificant whitespace. -/
def isWsChar (c : Char) : Bool :=
  c == ' ' || c == '\t' || c == '\n' || c == '\r'

/-- Drop leading insignificant whitespace. -/
def skipWs : List Char → List Char
  | [] => []
  | c :: rest => if isWsChar c then skipWs rest else c :: rest

/-- Decimal digit test. -/
def isDigitChar (c : Char) : Bool := 48 ≤ c.toNat && c.toNat ≤ 57

/-- Value of a decimal digit character. -/
def digitVal (c : Char) : Nat := c.toNat - 48

/-- Consume a run of decimal digits, accumulating their value. -/
def parseDigits (acc : Nat) : List Char → Nat × List Char
  | [] => (acc, [])
  | c :: rest =>
    if isDigitChar c then parseDigits (acc * 10 + digitVal c) rest
    else (acc, c :: rest)

/-- Parse an (integer) JSON number: an optional minus sign followed by at
least one digit. -/
def parseNumber : List Char → Except String (JValue × List Char)
  | [] => Except.error parseErrorMsg
  | c :: rest =>
    if c = '-' then
      match rest with
      | [] => Except.error parseErrorMsg
      | d :: rest' =>
        if isDigitChar d then
          let r := parseDigits 0 (d :: rest')
          Except.ok (JValue.jnum (-(r.1 : Int)), r.2)
        else Except.error parseErrorMsg
    else if isDigitChar c then
      let r := parseDigits 0 (c :: rest)
      Except.ok (JValue.jnum (r.1 : Int), r.2)
    else Except.error parseErrorMsg

/-- Resolution of a character following a backslash inside a JSON string:
the named escapes are accepted, anything else is malformed. -/
def unescapeChar (c : Char) : Option Char :=
  if c = '"' then some '"'
  else if c = '\\' then some '\\'
  else if c = '/' then some '/'
  else if c = 'n' then some '\n'
  else if c = 't' then some '\t'
  else if c = 'r' then some '\r'
  else if c = 'b' then some (Char.ofNat 8)
  else if c = 'f' then some (Char.ofNat 12)
  else none

/-- Scan the body of a JSON string after the opening quote: `esc` records
whether the previous character was an unconsumed backslash, `acc` holds the
decoded characters in reverse. -/
def parseStringBody (esc : Bool) (acc : List Char) :
    List Char → Except String (String × List Char)
  | [] => Except.error parseErrorMsg
  | c :: rest =>
    if esc then
      match unescapeChar c with
      | some c' => parseStringBody false (c' :: acc) rest
      | none => Except.error parseErrorMsg
    else if c = '"' then Except.ok (String.mk acc.reverse, rest)
    else if c = '\\' then parseStringBody true acc rest
    else parseStringBody false (c :: acc) rest

mutual

/-- Modelled from the spec: the recursive-descent reader behind
`JSON.parse`. Parses one JSON value and returns it with the unconsumed
remainder; `fuel` bounds the recursion and is refilled by the caller with
more than the input can ever need. -/
def parseValue : Nat → List Char → Except String (JValue × List Char)
  | 0, _ => Except.error parseErrorMsg
  | fuel+1, cs =>
    match skipWs cs with
    | [] => Except.error parseErrorMsg
    | c :: rest =>
      if c = '"' then
        match parseStringBody false [] rest with
        | Except.ok (s, rest') => Except.ok (JValue.jstr s, rest')
        | Except.error e => Except.error e
      else if c = '{' then
        match skipWs rest with
        | '}' :: rest' => Except.ok (JValue.jobj [], rest')
        | cs' =>
          match parseFields fuel cs' with
          | Except.ok (fs, rest') => Except.ok (JValue.jobj fs, rest')
          | Except.error e => Except.error e
      else if c = '[' then
        match skipWs rest with
        | ']' :: rest' => Except.ok (JValue.jarr [], rest')
        | cs' =>
          match parseItems fuel cs' with
          | Except.ok (vs, rest') => Except.ok (JValue.jarr vs, rest')
          | Except.error e => Except.error e
      else if c = 'n' then
        if ['u', 'l', 'l'].isPrefixOf rest then Except.ok (JValue.jnull, rest.drop 3)
        else Except.error parseErrorMsg
      else if c = 't' then
        if ['r', 'u', 'e'].isPrefixOf rest then Except.ok (JValue.jbool true, rest.drop 3)
        else Except.error parseErrorMsg
      else if c = 'f' then
        if ['a', 'l', 's', 'e'].isPrefixOf rest then
          Except.ok (JValue.jbool false, rest.drop 4)
        else Except.error parseErrorMsg
      else parseNumber (c :: rest)

/-- Parse the comma-separated items of a nonempty array together with the
closing bracket. -/
def parseItems : Nat → List Char → Except String (List JValue × List Char)
  | 0, _ => Except.error parseErrorMsg
  | fuel+1, cs =>
    match parseValue fuel cs with
    | Except.error e => Except.error e
    | Except.ok (v, rest) =>
      match skipWs rest with
      | ',' :: rest' =>
        match parseItems fuel rest' with
        | Except.ok (vs, rest'') => Except.ok (v :: vs, rest'')
        | Except.error e => Except.error e
      | ']' :: rest' => Except.ok ([v], rest')
      | _ => Except.error parseErrorMsg

/-- Parse the comma-separated `"key":value` fields of a nonempty object
together with the closing brace. -/
def parseFields : Nat → List Char → Except String (List (String × JValue) × List Char)
  | 0, _ => Except.error parseErrorMsg
  | fuel+1, cs =>
    match skipWs cs with
    | '"' :: rest =>
      match parseStringBody false [] rest with
      | Except.error e => Except.error e
      | Except.ok (k, rest1) =>
        match skipWs rest1 with
        | ':' :: rest2 =>
          match parseValue fuel rest2 with
          | Except.error e => Except.error e
          | Except.ok (v, rest3) =>
            match skipWs rest3 with
            | ',' :: rest4 =>
              match parseFields fuel rest4 with
              | Except.ok (fs, rest5) => Except.ok ((k, v) :: fs, rest5)
              | Except.error e => Except.error e
            | '}' :: rest4 => Except.ok ([(k, v)], rest4)
            | _ => Except.error parseErrorMsg
        | _ => Except.error parseErrorMsg
    | _ => Except.error parseErrorMsg

end

/-- Modelled from the spec: `JSON.parse` — parse a complete JSON text,
rejecting trailing garbage, and fail with the parse error on malformed
input. -/
def jsonParse (s : String) : Except String JValue :=
  match parseValue (2 * s.length + 2) s.data with
  | Except.error e => Except.error e
  | Except.ok (v, rest) =>
    if (skipWs rest).isEmpty then Except.ok v else Except.error parseErrorMsg

/-- A value with an attached capability set (prototype): the object
`Object.create(proto)` + `Object.assign(obj, data)` produces. -/
structure ProtoObject (prototype : Type) where
  proto : prototype
  fields : List (String × JValue)

/-- The own enumerable properties `Object.assign` copies from a parsed JSON
value: an object contributes its fields, an array and a string contribute
index-keyed entries, primitives contribute nothing. -/
def assignFields : JValue → List (String × JValue)
  | JValue.jobj fields => fields
  | JValue.jarr items => items.enum.map (fun p => (toString p.1, p.2))
  | JValue.jstr s =>
    s.data.enum.map (fun p => (toString p.1, JValue.jstr (String.mk [p.2])))
  | _ => []

/-- `fromJSON(proto, json)` from the source: create an object with capability
set `proto`, parse the text (propagating the parse error), and copy the
parsed own fields onto the object. -/
def fromJSON {prototype : Type} (proto : prototype) (json : String) :
    Except String (ProtoObject prototype) :=
  match jsonParse json with
  | Except.error e => Except.error e
  | Except.ok data => Except.ok { proto := proto, fields := assignFields data }

/-- A plain (non-object-typed, non-array) JSON value. -/
def JValue.isPrim : JValue → Bool
  | JValue.jarr _ => false
  | JValue.jobj _ => false
  | _ => true

example :
    jsonParse (getJSON
        (JValue.jobj [("a", JValue.jnum (-12)), ("b", JValue.jstr "x\"y")])) =
      Except.ok (JValue.jobj [("a", JValue.jnum (-12)), ("b", JValue.jstr "x\"y")]) := by
  rfl

example : jsonParse (String.mk ['{']) = Except.error parseErrorMsg := by rfl
def noLeadingDigit : List Char → Bool
  | [] => true
  | c :: _ => !isDigitChar c

theorem stringMk_data (s : String) : String.mk s.data = s := rfl

theorem skipWs_cons {c : Char} (h : isWsChar c = false) (l : List Char) :
    skipWs (c :: l) = c :: l := by
  simp [skipWs, h]

theorem parseDigits_append {ds : List Char} (h : ∀ c ∈ ds, isDigitChar c = true)
    (acc : Nat) (rest : List Char) :
    parseDigits acc (ds ++ rest) =
      parseDigits (ds.foldl (fun a c => a * 10 + digitVal c) acc) rest := by
  induction ds generalizing acc with
  | nil => simp
  | cons c ds ih =>
    have hc : isDigitChar c = true := h c (by simp)
    simp only [List.cons_append, parseDigits, hc, if_true, List.foldl_cons]
    exact ih (fun x hx => h x (by simp [hx])) _

theorem parseDigits_stop {rest : List Char} (h : noLeadingDigit rest = true) (acc : Nat) :
    parseDigits acc rest = (acc, rest) := by
  cases rest with
  | nil => rfl
  | cons c r =>
    simp only [noLeadingDigit, Bool.not_eq_true'] at h
    simp [parseDigits, h]

theorem digitChar_spec {d : Nat} (h : d < 10) :
    isDigitChar (digitChar d) = true ∧ digitVal (digitChar d) = d := by
  interval_cases d <;> exact ⟨by decide, by decide⟩

theorem natToDigits_ne_nil {fuel n : Nat} (h : 0 < fuel) : natToDigits fuel n ≠ [] := by
  cases fuel with
  | zero => omega
  | succ f =>
    simp only [natToDigits]
    split
    · simp
    · simp

theorem natToDigits_all_digits : ∀ (fuel n : Nat), ∀ c ∈ natToDigits fuel n,
    isDigitChar c = true := by
  intro fuel
  induction fuel with
  | zero => intro n c hc; simp [natToDigits] at hc
  | succ f ih =>
    intro n c hc
    simp only [natToDigits] at hc
    split at hc
    · rcases List.mem_singleton.mp hc with rfl
      exact (digitChar_spec (by omega)).1
    · rcases List.mem_append.mp hc with hm | hm
      · exact ih _ c hm
      · rcases List.mem_singleton.mp hm with rfl
        exact (digitChar_spec (Nat.mod_lt _ (by omega))).1

theorem natToDigits_foldl : ∀ (fuel n : Nat), n < fuel → ∀ acc : Nat,
    (natToDigits fuel n).foldl (fun a c => a * 10 + digitVal c) acc =
      acc * 10 ^ (natToDigits fuel n).length + n := by
  intro fuel
  induction fuel with
  | zero => omega
  | succ f ih =>
    intro n hn acc
    simp only [natToDigits]
    split
    · next h10 =>
      simp [List.foldl_cons, (digitChar_spec h10).2]
    · next h10 =>
      push_neg at h10
      have hdiv : n / 10 < f := by
        have h1 : n / 10 < n := Nat.div_lt_self (by omega) (by omega)
        omega
      rw [List.foldl_append, ih (n / 10) hdiv acc]
      simp only [List.foldl_cons, List.foldl_nil, List.length_append,
        List.length_singleton]
      rw [(digitChar_spec (Nat.mod_lt _ (by omega))).2, pow_succ]
      have hmod := Nat.div_add_mod n 10
      generalize (10 : Nat) ^ (natToDigits f (n / 10)).length = P
      ring_nf
      omega

theorem isDigitChar_not_special {c : Char} (h : isDigitChar c = true) :
    c ≠ '-' ∧ c ≠ '"' ∧ c ≠ '{' ∧ c ≠ '[' ∧ c ≠ 'n' ∧ c ≠ 't' ∧ c ≠ 'f' ∧
      isWsChar c = false := by
  refine ⟨?_, ?_, ?_, ?_, ?_, ?_, ?_, ?_⟩
  · rintro rfl; exact absurd h (by decide)
  · rintro rfl; exact absurd h (by decide)
  · rintro rfl; exact absurd h (by decide)
  · rintro rfl; exact absurd h (by decide)
  · rintro rfl; exact absurd h (by decide)
  · rintro rfl; exact absurd h (by decide)
  · rintro rfl; exact absurd h (by decide)
  · have hb : 48 ≤ c.toNat ∧ c.toNat ≤ 57 := by simpa [isDigitChar] using h
    simp only [isWsChar, Bool.or_eq_false_iff, beq_eq_false_iff_ne]
    refine ⟨⟨⟨?_, ?_⟩, ?_⟩, ?_⟩ <;>
      (rintro rfl; revert hb; decide)

theorem natChars_foldl (n : Nat) :
    (natChars n).foldl (fun a c => a * 10 + digitVal c) 0 = n := by
  show (natToDigits (n + 1) n).foldl _ 0 = n
  rw [natToDigits_foldl (n + 1) n (by omega) 0]
  simp

theorem natChars_ne_nil (n : Nat) : natChars n ≠ [] :=
  natToDigits_ne_nil (by omega)

theorem natChars_all_digits (n : Nat) : ∀ c ∈ natChars n, isDigitChar c = true :=
  natToDigits_all_digits _ _

theorem parseDigits_natChars (n : Nat) (rest : List Char)
    (hrest : noLeadingDigit rest = true) :
    parseDigits 0 (natChars n ++ rest) = (n, rest) := by
  rw [parseDigits_append (natChars_all_digits n) 0 rest, natChars_foldl,
    parseDigits_stop hrest]

theorem parseNumber_natChars (n : Nat) (rest : List Char)
    (hrest : noLeadingDigit rest = true) :
    parseNumber (natChars n ++ rest) = Except.ok (JValue.jnum (n : Int), rest) := by
  obtain ⟨d, ds, hds⟩ := List.exists_cons_of_ne_nil (natChars_ne_nil n)
  have hd : isDigitChar d = true := natChars_all_digits n d (by rw [hds]; simp)
  have hpd : parseDigits 0 (d :: (ds ++ rest)) = (n, rest) := by
    rw [← List.cons_append, ← hds]
    exact parseDigits_natChars n rest hrest
  rw [hds, List.cons_append]
  simp only [parseNumber]
  rw [if_neg (isDigitChar_not_special hd).1, if_pos hd]
  simp [hpd]

theorem parseNumber_intChars (n : Int) (rest : List Char)
    (hrest : noLeadingDigit rest = true) :
    parseNumber (intChars n ++ rest) = Except.ok (JValue.jnum n, rest) := by
  by_cases hneg : n < 0
  · simp only [intChars, if_pos hneg]
    obtain ⟨d, ds, hds⟩ := List.exists_cons_of_ne_nil (natChars_ne_nil (-n).toNat)
    have hd : isDigitChar d = true := natChars_all_digits _ d (by rw [hds]; simp)
    have hpd : parseDigits 0 (d :: (ds ++ rest)) = ((-n).toNat, rest) := by
      rw [← List.cons_append, ← hds]
      exact parseDigits_natChars _ rest hrest
    rw [List.cons_append, hds, List.cons_append]
    simp only [parseNumber, if_true]
    rw [if_pos hd]
    simp only [hpd]
    have hcast : ((-n).toNat : Int) = -n := Int.toNat_of_nonneg (by omega)
    rw [hcast, neg_neg]
  · simp only [intChars, if_neg hneg]
    have hcast : ((n.toNat : Nat) : Int) = n := Int.toNat_of_nonneg (by omega)
    rw [parseNumber_natChars n.toNat rest hrest, hcast]


theorem parseStringBody_roundtrip : ∀ (cs acc rest : List Char),
    parseStringBody false acc (escapeChars cs ++ '"' :: rest) =
      Except.ok (String.mk (acc.reverse ++ cs), rest) := by
  intro cs
  induction cs with
  | nil =>
    intro acc rest
    show parseStringBody false acc ('"' :: rest) = _
    simp [parseStringBody]
  | cons c cs ih =>
    intro acc rest
    by_cases hq : c = '"'
    · subst hq
      show parseStringBody false acc ('\\' :: '"' :: (escapeChars cs ++ '"' :: rest)) = _
      simp only [parseStringBody, Bool.false_eq_true, if_false,
        if_neg (by decide : ¬('\\' = '"')), if_pos rfl, if_true, unescapeChar]
      rw [ih]
      simp
    · by_cases hb : c = '\\'
      · subst hb
        show parseStringBody false acc
            ('\\' :: '\\' :: (escapeChars cs ++ '"' :: rest)) = _
        simp only [parseStringBody, Bool.false_eq_true, if_false,
          if_neg (by decide : ¬('\\' = '"')), if_pos rfl, if_true, unescapeChar]
        rw [ih]
        simp
      · have hesc : escapeChar c = [c] := by
          simp [escapeChar, hq, hb]
        show parseStringBody false acc
            ((escapeChar c ++ escapeChars cs) ++ '"' :: rest) = _
        rw [hesc]
        show parseStringBody false acc (c :: (escapeChars cs ++ '"' :: rest)) = _
        simp only [parseStringBody, Bool.false_eq_true, if_false, if_neg hq, if_neg hb]
        rw [ih]
        simp

theorem parseValue_null (fuel : Nat) (rest : List Char) :
    parseValue (fuel+1) ('n' :: 'u' :: 'l' :: 'l' :: rest) =
      Except.ok (JValue.jnull, rest) := by
  simp only [parseValue]
  rw [skipWs_cons (by decide)]
  simp [List.isPrefixOf]

theorem parseValue_true (fuel : Nat) (rest : List Char) :
    parseValue (fuel+1) ('t' :: 'r' :: 'u' :: 'e' :: rest) =
      Except.ok (JValue.jbool true, rest) := by
  simp only [parseValue]
  rw [skipWs_cons (by decide)]
  simp [List.isPrefixOf]

theorem parseValue_false (fuel : Nat) (rest : List Char) :
    parseValue (fuel+1) ('f' :: 'a' :: 'l' :: 's' :: 'e' :: rest) =
      Except.ok (JValue.jbool false, rest) := by
  simp only [parseValue]
  rw [skipWs_cons (by decide)]
  simp [List.isPrefixOf]

theorem parseValue_quote (fuel : Nat) (body : List Char) :
    parseValue (fuel+1) ('"' :: body) =
      match parseStringBody false [] body with
      | Except.ok (s, rest') => Except.ok (JValue.jstr s, rest')
      | Except.error e => Except.error e := rfl

theorem parseValue_brace_empty (fuel : Nat) (rest : List Char) :
    parseValue (fuel+1) ('{' :: '}' :: rest) =
      Except.ok (JValue.jobj [], rest) := rfl

theorem parseValue_brace_quote (fuel : Nat) (body : List Char) :
    parseValue (fuel+1) ('{' :: '"' :: body) =
      match parseFields fuel ('"' :: body) with
      | Except.ok (fs, rest') => Except.ok (JValue.jobj fs, rest')
      | Except.error e => Except.error e := rfl

theorem parseValue_other (fuel : Nat) {c : Char} (rest : List Char)
    (hws : isWsChar c = false) (h1 : c ≠ '"') (h2 : c ≠ '{') (h3 : c ≠ '[')
    (h4 : c ≠ 'n') (h5 : c ≠ 't') (h6 : c ≠ 'f') :
    parseValue (fuel+1) (c :: rest) = parseNumber (c :: rest) := by
  simp only [parseValue]
  rw [skipWs_cons hws]
  simp only [if_neg h1, if_neg h2, if_neg h3, if_neg h4, if_neg h5, if_neg h6]

theorem parseValue_prim (fuel : Nat) (v : JValue) (hp : v.isPrim = true)
    (rest : List Char) (hrest : noLeadingDigit rest = true) :
    parseValue (fuel+1) (stringifyChars v ++ rest) = Except.ok (v, rest) := by
  cases v with
  | jnull => exact parseValue_null fuel rest
  | jbool b =>
    cases b
    · exact parseValue_false fuel rest
    · exact parseValue_true fuel rest
  | jnum n =>
    show parseValue (fuel+1) (intChars n ++ rest) = _
    by_cases hneg : n < 0
    · have hsh : intChars n = '-' :: natChars (-n).toNat := by
        simp [intChars, hneg]
      rw [hsh, List.cons_append,
        parseValue_other fuel _ (by decide) (by decide) (by decide) (by decide)
          (by decide) (by decide) (by decide),
        ← List.cons_append, ← hsh, parseNumber_intChars n rest hrest]
    · have hsh : intChars n = natChars n.toNat := by
        simp [intChars, hneg]
      obtain ⟨d, ds, hds⟩ := List.exists_cons_of_ne_nil (natChars_ne_nil n.toNat)
      have hd : isDigitChar d = true := natChars_all_digits _ d (by rw [hds]; simp)
      obtain ⟨hm, hq, hbr, hsq, hn, ht, hf, hws⟩ := isDigitChar_not_special hd
      rw [hsh, hds, List.cons_append,
        parseValue_other fuel _ hws hq hbr hsq hn ht hf,
        ← List.cons_append, ← hds, ← hsh, parseNumber_intChars n rest hrest]
  | jstr s =>
    have hsh : stringifyChars (JValue.jstr s) ++ rest =
        '"' :: (escapeChars s.data ++ '"' :: rest) := by
      show ('"' :: escapeChars s.data ++ ['"']) ++ rest = _
      simp
    rw [hsh, parseValue_quote, parseStringBody_roundtrip]
    simp [stringMk_data]
  | jarr items => simp [JValue.isPrim] at hp
  | jobj fields => simp [JValue.isPrim] at hp

theorem parseFields_quote (fuel : Nat) (body : List Char) :
    parseFields (fuel+1) ('"' :: body) =
      match parseStringBody false [] body with
      | Except.error e => Except.error e
      | Except.ok (k, rest1) =>
        match skipWs rest1 with
        | ':' :: rest2 =>
          match parseValue fuel rest2 with
          | Except.error e => Except.error e
          | Except.ok (v, rest3) =>
            match skipWs rest3 with
            | ',' :: rest4 =>
              match parseFields fuel rest4 with
              | Except.ok (fs, rest5) => Except.ok ((k, v) :: fs, rest5)
              | Except.error e => Except.error e
            | '}' :: rest4 => Except.ok ([(k, v)], rest4)
            | _ => Except.error parseErrorMsg
        | _ => Except.error parseErrorMsg := rfl

theorem parseFields_roundtrip : ∀ (fields : List (String × JValue)) (fuel : Nat),
    (∀ kv ∈ fields, kv.2.isPrim = true) → fields ≠ [] → fields.length ≤ fuel →
    ∀ rest0 : List Char,
      parseFields (fuel+1) (stringifyFields fields ++ '}' :: rest0) =
        Except.ok (fields, rest0) := by
  intro fields
  induction fields with
  | nil => intro fuel _ hne _ _; exact absurd rfl hne
  | cons kv tl ih =>
    intro fuel hprim _ hlen rest0
    obtain ⟨k, v⟩ := kv
    have hv : v.isPrim = true := hprim (k, v) (by simp)
    obtain ⟨f, rfl⟩ : ∃ f, fuel = f + 1 := by
      cases tl <;> simp at hlen <;> exact ⟨fuel - 1, by omega⟩
    cases tl with
    | nil =>
      have hsh : stringifyFields [(k, v)] ++ '}' :: rest0 =
          '"' :: (escapeChars k.data ++ '"' ::
            (':' :: (stringifyChars v ++ '}' :: rest0))) := by
        show ('"' :: escapeChars k.data ++ '"' :: ':' :: stringifyChars v) ++
            '}' :: rest0 = _
        simp
      rw [hsh, parseFields_quote, parseStringBody_roundtrip]
      simp only [List.reverse_nil, List.nil_append, stringMk_data]
      rw [skipWs_cons (by decide)]
      show (match parseValue (f+1) (stringifyChars v ++ '}' :: rest0) with
        | Except.error e => Except.error e
        | Except.ok (v, rest3) =>
          match skipWs rest3 with
          | ',' :: rest4 =>
            match parseFields (f+1) rest4 with
            | Except.ok (fs, rest5) => Except.ok ((k, v) :: fs, rest5)
            | Except.error e => Except.error e
          | '}' :: rest4 => Except.ok ([(k, v)], rest4)
          | _ => Except.error parseErrorMsg) = _
      rw [parseValue_prim f v hv ('}' :: rest0) (by rfl)]
      show (match skipWs ('}' :: rest0) with
        | ',' :: rest4 =>
          match parseFields (f+1) rest4 with
          | Except.ok (fs, rest5) => Except.ok ((k, v) :: fs, rest5)
          | Except.error e => Except.error e
        | '}' :: rest4 => Except.ok ([(k, v)], rest4)
        | _ => Except.error parseErrorMsg) = _
      rw [skipWs_cons (by decide)]
      rfl
    | cons kv2 tl' =>
      have hsh : stringifyFields ((k, v) :: kv2 :: tl') ++ '}' :: rest0 =
          '"' :: (escapeChars k.data ++ '"' ::
            (':' :: (stringifyChars v ++ ',' ::
              (stringifyFields (kv2 :: tl') ++ '}' :: rest0)))) := by
        show ('"' :: escapeChars k.data ++ '"' :: ':' :: stringifyChars v ++
            ',' :: stringifyFields (kv2 :: tl')) ++ '}' :: rest0 = _
        simp
      rw [hsh, parseFields_quote, parseStringBody_roundtrip]
      simp only [List.reverse_nil, List.nil_append, stringMk_data]
      rw [skipWs_cons (by decide)]
      show (match parseValue (f+1) (stringifyChars v ++ ',' ::
          (stringifyFields (kv2 :: tl') ++ '}' :: rest0)) with
        | Except.error e => Except.error e
        | Except.ok (v, rest3) =>
          match skipWs rest3 with
          | ',' :: rest4 =>
            match parseFields (f+1) rest4 with
            | Except.ok (fs, rest5) => Except.ok ((k, v) :: fs, rest5)
            | Except.error e => Except.error e
          | '}' :: rest4 => Except.ok ([(k, v)], rest4)
          | _ => Except.error parseErrorMsg) = _
      rw [parseValue_prim f v hv _ (by rfl)]
      show (match skipWs (',' :: (stringifyFields (kv2 :: tl') ++ '}' :: rest0)) with
        | ',' :: rest4 =>
          match parseFields (f+1) rest4 with
          | Except.ok (fs, rest5) => Except.ok ((k, v) :: fs, rest5)
          | Except.error e => Except.error e
        | '}' :: rest4 => Except.ok ([(k, v)], rest4)
        | _ => Except.error parseErrorMsg) = _
      rw [skipWs_cons (by decide)]
      show (match parseFields (f + 1) (stringifyFields (kv2 :: tl') ++ '}' :: rest0) with
        | Except.ok (fs, rest5) => Except.ok ((k, v) :: fs, rest5)
        | Except.error e => Except.error e) = _
      rw [ih f (fun x hx => hprim x (by simp [hx])) (by simp)
        (by simp only [List.length_cons] at hlen ⊢; omega) rest0]

theorem stringifyFields_length_le : ∀ fields : List (String × JValue),
    fields.length ≤ (stringifyFields fields).length := by
  intro fields
  induction fields with
  | nil => simp [stringifyFields]
  | cons kv tl ih =>
    cases tl with
    | nil => simp [stringifyFields]
    | cons kv2 tl' =>
      show (kv :: kv2 :: tl').length ≤
        ('"' :: escapeChars kv.1.data ++ '"' :: ':' :: stringifyChars kv.2 ++
          ',' :: stringifyFields (kv2 :: tl')).length
      simp only [List.length_cons, List.length_append] at ih ⊢
      omega

theorem jsonParse_mk (chars : List Char) :
    jsonParse (String.mk chars) =
      match parseValue (2 * chars.length + 2) chars with
      | Except.error e => Except.error e
      | Except.ok (v, rest) =>
        if (skipWs rest).isEmpty then Except.ok v
        else Except.error parseErrorMsg := rfl

theorem jsonParse_getJSON_flat (fields : List (String × JValue))
    (hprim : ∀ kv ∈ fields, kv.2.isPrim = true) :
    jsonParse (getJSON (JValue.jobj fields)) = Except.ok (JValue.jobj fields) := by
  cases fields with
  | nil => rfl
  | cons kv tl =>
    obtain ⟨Fr, hF⟩ : ∃ Fr, stringifyFields (kv :: tl) = '"' :: Fr := by
      cases tl <;> exact ⟨_, rfl⟩
    show jsonParse (String.mk ('{' :: stringifyFields (kv :: tl) ++ ['}'])) = _
    rw [jsonParse_mk]
    have hlen : (kv :: tl).length ≤
        2 * ('{' :: stringifyFields (kv :: tl) ++ ['}']).length :=
      le_trans (stringifyFields_length_le (kv :: tl)) (by
        simp only [List.length_cons, List.length_append]
        omega)
    have hfuel : 2 * ('{' :: stringifyFields (kv :: tl) ++ ['}']).length + 2 =
        ((2 * ('{' :: stringifyFields (kv :: tl) ++ ['}']).length + 1)) + 1 := rfl
    rw [hfuel]
    have hshape : '{' :: stringifyFields (kv :: tl) ++ ['}'] =
        '{' :: '"' :: (Fr ++ ['}']) := by
      rw [hF]
      simp
    rw [hshape, parseValue_brace_quote]
    have hback : '"' :: (Fr ++ ['}']) =
        stringifyFields (kv :: tl) ++ '}' :: [] := by
      rw [hF]
      simp
    rw [hback, parseFields_roundtrip (kv :: tl)
      (2 * ('{' :: (stringifyFields (kv :: tl) ++ ['}'])).length) hprim (by simp)
      hlen []]
    rfl


/-- C8: for every value whose own fields are plain JSON data and every
prototype, deserializing what was serialized reproduces the own fields
exactly and attaches the requested capability set: `fromJSON P (getJSON v)`
yields the value with prototype `P` and the same fields as `v`. -/
theorem c8_json_roundtrip {P : Type} (proto : P) (fields : List (String × JValue))
    (hprim : ∀ kv ∈ fields, kv.2.isPrim = true)
    (hkeys : (fields.map Prod.fst).Nodup) :
    fromJSON proto (getJSON (JValue.jobj fields)) =
      Except.ok { proto := proto, fields := fields } := by
  unfold fromJSON
  rw [jsonParse_getJSON_flat fields hprim]
  rfl

/-- Witness for C8 at a concrete flat value and prototype. -/
theorem c8_json_roundtrip_witness :
    (∀ kv ∈ [("width", JValue.jnum 10), ("height", JValue.jnum 20),
        ("name", JValue.jstr "r1")], (kv.2.isPrim = true)) ∧
    ([("width", JValue.jnum 10), ("height", JValue.jnum 20),
        ("name", JValue.jstr "r1")].map Prod.fst).Nodup ∧
    fromJSON (0 : Nat) (getJSON (JValue.jobj [("width", JValue.jnum 10),
        ("height", JValue.jnum 20), ("name", JValue.jstr "r1")])) =
      Except.ok { proto := 0, fields := [("width", JValue.jnum 10),
        ("height", JValue.jnum 20), ("name", JValue.jstr "r1")] } :=
  ⟨by decide, by decide,
   c8_json_roundtrip 0 [("width", JValue.jnum 10), ("height", JValue.jnum 20),
     ("name", JValue.jstr "r1")] (by decide) (by decide)⟩

/-- C9: `fromJSON` fails, with exactly the parse error the parser raised,
precisely when the text is not well-formed (well-formedness being modelled
operationally by `jsonParse`); and serialization never produces a text on
which deserialization fails, for the supported (plain-field) value shapes.
-/
theorem c9_parse_error_propagation {P : Type} (proto : P) (t : String) :
    (∀ e, fromJSON proto t = Except.error e ↔ jsonParse t = Except.error e) ∧
    (∀ fields : List (String × JValue), (∀ kv ∈ fields, kv.2.isPrim = true) →
      ∀ e, fromJSON proto (getJSON (JValue.jobj fields)) ≠ Except.error e) := by
  constructor
  · intro e
    unfold fromJSON
    rcases h : jsonParse t with e' | v <;> simp
  · intro fields hprim e
    unfold fromJSON
    rw [jsonParse_getJSON_flat fields hprim]
    simp

/-- Witness for C9: the malformed text `{` makes both sides fail, and a
serialized flat object never fails. -/
theorem c9_parse_error_propagation_witness :
    (fromJSON (0 : Nat) (String.mk ['{']) = Except.error parseErrorMsg ↔
      jsonParse (String.mk ['{']) = Except.error parseErrorMsg) ∧
    (∀ e, fromJSON (0 : Nat) (getJSON (JValue.jobj [("a", JValue.jnum 1)])) ≠
      Except.error e) :=
  ⟨(c9_parse_error_propagation (0 : Nat) (String.mk ['{'])).1 parseErrorMsg,
   (c9_parse_error_propagation (0 : Nat) (String.mk ['{'])).2 [("a", JValue.jnum 1)] (by decide)⟩
